import Mathlib

/-!
Verification of the contract-management core: the lifecycle state machine
(src/utils/stateMachine), the contract store (src/stores/contractStore.ts) and
the blueprint store (src/stores/blueprintStore.ts), embedded as pure functions.
Zustand store mutations are modelled as explicit state passing: each store
action takes the current collection and returns the action's result together
with the new collection.  `generateId()` (crypto.randomUUID) and
`getCurrentTimestamp()` are modelled as explicit `freshId` / `now` parameters.
-/

namespace ContractMgmt

/-- The six contract lifecycle states (`ContractStatus` in src/types). -/
inductive ContractStatus
  | CREATED
  | APPROVED
  | SENT
  | SIGNED
  | LOCKED
  | REVOKED
  deriving DecidableEq, Repr, Fintype

/-- Dashboard filter categories (`DashboardFilter` in src/types). -/
inductive DashboardFilter
  | ALL
  | ACTIVE
  | PENDING
  | SIGNED
  | ARCHIVED
  deriving DecidableEq, Repr, Fintype

/-- Key insertion order of the `TRANSITIONS` (and `STATUS_TO_FILTER`) record
literals, which is what `Object.keys` / `Object.entries` enumerate. -/
def statusKeys : List ContractStatus :=
  [.CREATED, .APPROVED, .SENT, .SIGNED, .LOCKED, .REVOKED]

/-- `TRANSITIONS` record of src/utils/stateMachine: valid transitions from
each state. -/
def TRANSITIONS : ContractStatus → List ContractStatus
  | .CREATED => [.APPROVED, .REVOKED]
  | .APPROVED => [.SENT, .CREATED, .REVOKED]
  | .SENT => [.SIGNED, .REVOKED]
  | .SIGNED => [.LOCKED]
  | .LOCKED => []
  | .REVOKED => []

/-- `EDITABLE_STATES`: states that allow editing field values. -/
def EDITABLE_STATES : List ContractStatus := [.CREATED]

/-- `STATUS_TO_FILTER` record: maps lifecycle states to dashboard filters. -/
def STATUS_TO_FILTER : ContractStatus → DashboardFilter
  | .CREATED => .ACTIVE
  | .APPROVED => .ACTIVE
  | .SENT => .PENDING
  | .SIGNED => .SIGNED
  | .LOCKED => .SIGNED
  | .REVOKED => .ARCHIVED

/-- `canTransition(from, to)`: `TRANSITIONS[from].includes(to)`. -/
def canTransition (s t : ContractStatus) : Bool :=
  (TRANSITIONS s).contains t

/-- `getValidTransitions(status)`: `TRANSITIONS[status]`. -/
def getValidTransitions (status : ContractStatus) : List ContractStatus :=
  TRANSITIONS status

/-- `isEditable(status)`: `EDITABLE_STATES.includes(status)`. -/
def isEditable (status : ContractStatus) : Bool :=
  EDITABLE_STATES.contains status

/-- `isTerminal(status)`: `TRANSITIONS[status].length === 0`. -/
def isTerminal (status : ContractStatus) : Bool :=
  (TRANSITIONS status).length == 0

/-- `getFilterForStatus(status)`: `STATUS_TO_FILTER[status]`. -/
def getFilterForStatus (status : ContractStatus) : DashboardFilter :=
  STATUS_TO_FILTER status

/-- `getStatusesForFilter(filter)`: all statuses whose filter category is
`filter`; `ALL` returns `Object.keys(TRANSITIONS)`.  `Object.entries` of
`STATUS_TO_FILTER` is modelled as `statusKeys` paired with the map's values,
preserving key insertion order. -/
def getStatusesForFilter (filter : DashboardFilter) : List ContractStatus :=
  if filter == .ALL then
    statusKeys
  else
    ((statusKeys.map (fun s => (s, STATUS_TO_FILTER s))).filter
      (fun p => p.2 == filter)).map (fun p => p.1)

/-- `FieldType` in src/types/blueprint. -/
inductive FieldType
  | TEXT
  | DATE
  | SIGNATURE
  | CHECKBOX
  deriving DecidableEq, Repr

/-- `FieldEditor` in src/types/blueprint. -/
inductive FieldEditor
  | manager
  | client
  | both
  deriving DecidableEq, Repr

/-- `BlueprintField` in src/types/blueprint; TS optional properties become
`Option`. -/
structure BlueprintField where
  id : String
  type : FieldType
  label : String
  position : Nat
  required : Bool
  editableBy : Option FieldEditor := none
  placeholder : Option String := none
  defaultChecked : Option Bool := none
  deriving DecidableEq, Repr

/-- `Blueprint` in src/types/blueprint. -/
structure Blueprint where
  id : String
  name : String
  description : String
  fields : List BlueprintField
  createdAt : String
  updatedAt : String
  deriving DecidableEq, Repr

/-- A contract field's `value`: `string | boolean | null` in TS. -/
inductive FieldValue
  | str (s : String)
  | bool (b : Bool)
  | null
  deriving DecidableEq, Repr

/-- `ContractField`: the shape `createContract` builds (a copy of the
blueprint field's definition plus a mutable `value`). -/
structure ContractField where
  id : String
  type : FieldType
  label : String
  position : Nat
  required : Bool
  editableBy : Option FieldEditor := none
  placeholder : Option String := none
  value : FieldValue
  deriving DecidableEq, Repr

/-- `Contract` in src/types. -/
structure Contract where
  id : String
  name : String
  blueprintId : String
  blueprintName : String
  status : ContractStatus
  fields : List ContractField
  createdAt : String
  updatedAt : String
  deriving DecidableEq, Repr

/-- `ContractCreateInput` in src/types. -/
structure ContractCreateInput where
  name : String
  blueprintId : String
  deriving DecidableEq, Repr

/-- `getBlueprint(id)` of the blueprint store: `blueprints.find(bp => bp.id === id)`. -/
def getBlueprint (blueprints : List Blueprint) (id : String) : Option Blueprint :=
  blueprints.find? (fun bp => bp.id == id)

/-- `getContract(id)` of the contract store: `contracts.find(c => c.id === id)`. -/
def getContract (contracts : List Contract) (id : String) : Option Contract :=
  contracts.find? (fun c => c.id == id)

/-- The per-field copy `createContract` performs on each blueprint field:
copies the definition and initializes `value` to `defaultChecked ?? false`
for CHECKBOX and `null` otherwise. -/
def initContractField (f : BlueprintField) : ContractField :=
  { id := f.id
    type := f.type
    label := f.label
    position := f.position
    required := f.required
    editableBy := f.editableBy
    placeholder := f.placeholder
    value := if f.type == .CHECKBOX then .bool (f.defaultChecked.getD false) else .null }

/-- `createContract(input)` of the contract store: looks the blueprint up in
the blueprint store, returns `undefined` if absent, otherwise snapshots the
blueprint's fields and appends a fresh CREATED contract. -/
def createContract (blueprints : List Blueprint) (contracts : List Contract)
    (input : ContractCreateInput) (freshId now : String) :
    Option Contract × List Contract :=
  match getBlueprint blueprints input.blueprintId with
  | none => (none, contracts)
  | some blueprint =>
    let fields := blueprint.fields.map initContractField
    let contract : Contract :=
      { id := freshId
        name := input.name
        blueprintId := blueprint.id
        blueprintName := blueprint.name
        status := .CREATED
        fields := fields
        createdAt := now
        updatedAt := now }
    (some contract, contracts ++ [contract])

/-- `updateContractFields(id, fields)` of the contract store: allowed in
CREATED, or in SENT (signature updates); otherwise returns false with no
mutation. -/
def updateContractFields (contracts : List Contract) (id : String)
    (fields : List ContractField) (now : String) : Bool × List Contract :=
  match getContract contracts id with
  | none => (false, contracts)
  | some contract =>
    let isCreated := contract.status == .CREATED
    let isSentSignature := contract.status == .SENT
    if !isCreated && !isSentSignature then
      (false, contracts)
    else
      (true, contracts.map (fun c =>
        if c.id == id then { c with fields := fields, updatedAt := now } else c))

/-- `transitionStatus(id, newStatus)` of the contract store: validates the
transition with `canTransition`, otherwise returns false with no mutation. -/
def transitionStatus (contracts : List Contract) (id : String)
    (newStatus : ContractStatus) (now : String) : Bool × List Contract :=
  match getContract contracts id with
  | none => (false, contracts)
  | some contract =>
    if !canTransition contract.status newStatus then
      (false, contracts)
    else
      (true, contracts.map (fun c =>
        if c.id == id then { c with status := newStatus, updatedAt := now } else c))

/-- `BlueprintUpdateInput = Partial<Omit<Blueprint, id | timestamps>>`. -/
structure BlueprintUpdateInput where
  name : Option String := none
  description : Option String := none
  fields : Option (List BlueprintField) := none
  deriving DecidableEq, Repr

/-- The spread `{ ...bp, ...updates, updatedAt: now }` applied to one
blueprint. -/
def applyBlueprintUpdate (bp : Blueprint) (updates : BlueprintUpdateInput)
    (now : String) : Blueprint :=
  { bp with
    name := updates.name.getD bp.name
    description := updates.description.getD bp.description
    fields := updates.fields.getD bp.fields
    updatedAt := now }

/-- `updateBlueprint(id, updates)` of the blueprint store: maps over the
collection replacing every blueprint with a matching id; the returned
`updated` value is the last match's update (the callback assigns it). -/
def updateBlueprint (blueprints : List Blueprint) (id : String)
    (updates : BlueprintUpdateInput) (now : String) :
    Option Blueprint × List Blueprint :=
  let newBlueprints := blueprints.map (fun bp =>
    if bp.id == id then applyBlueprintUpdate bp updates now else bp)
  let updated := ((blueprints.filter (fun bp => bp.id == id)).getLast?).map
    (fun bp => applyBlueprintUpdate bp updates now)
  (updated, newBlueprints)

/-- `deleteBlueprint(id)` of the blueprint store. -/
def deleteBlueprint (blueprints : List Blueprint) (id : String) :
    Bool × List Blueprint :=
  let found := blueprints.any (fun bp => bp.id == id)
  (found, if found then blueprints.filter (fun bp => !(bp.id == id)) else blueprints)

/-- `Omit<BlueprintField, id | position>`: the data `addField` receives. -/
structure BlueprintFieldData where
  type : FieldType
  label : String
  required : Bool
  editableBy : Option FieldEditor := none
  placeholder : Option String := none
  defaultChecked : Option Bool := none
  deriving DecidableEq, Repr

/-- `addField(blueprintId, field)` of the blueprint store: appends a fresh
field at `position = blueprint.fields.length`. -/
def addField (blueprints : List Blueprint) (blueprintId : String)
    (fieldData : BlueprintFieldData) (freshId now : String) :
    Option BlueprintField × List Blueprint :=
  match getBlueprint blueprints blueprintId with
  | none => (none, blueprints)
  | some blueprint =>
    let field : BlueprintField :=
      { id := freshId
        type := fieldData.type
        label := fieldData.label
        position := blueprint.fields.length
        required := fieldData.required
        editableBy := fieldData.editableBy
        placeholder := fieldData.placeholder
        defaultChecked := fieldData.defaultChecked }
    (some field,
      (updateBlueprint blueprints blueprintId
        { fields := some (blueprint.fields ++ [field]) } now).2)

/-- `Partial<BlueprintField>`: every property optionally present; a present
optional property carries an `Option` value itself. -/
structure FieldUpdate where
  id : Option String := none
  type : Option FieldType := none
  label : Option String := none
  position : Option Nat := none
  required : Option Bool := none
  editableBy : Option (Option FieldEditor) := none
  placeholder : Option (Option String) := none
  defaultChecked : Option (Option Bool) := none
  deriving DecidableEq, Repr

/-- The spread `{ ...f, ...updates }` on one field. -/
def applyFieldUpdate (f : BlueprintField) (u : FieldUpdate) : BlueprintField :=
  { id := u.id.getD f.id
    type := u.type.getD f.type
    label := u.label.getD f.label
    position := u.position.getD f.position
    required := u.required.getD f.required
    editableBy := u.editableBy.getD f.editableBy
    placeholder := u.placeholder.getD f.placeholder
    defaultChecked := u.defaultChecked.getD f.defaultChecked }

/-- `updateField(blueprintId, fieldId, updates)` of the blueprint store:
returns false if the blueprint or the field is absent; otherwise applies the
spread to the matching field (no position re-normalization). -/
def updateField (blueprints : List Blueprint) (blueprintId fieldId : String)
    (updates : FieldUpdate) (now : String) : Bool × List Blueprint :=
  match getBlueprint blueprints blueprintId with
  | none => (false, blueprints)
  | some blueprint =>
    if !(blueprint.fields.any (fun f => f.id == fieldId)) then
      (false, blueprints)
    else
      (true,
        (updateBlueprint blueprints blueprintId
          { fields := some (blueprint.fields.map (fun f =>
              if f.id == fieldId then applyFieldUpdate f updates else f)) } now).2)

/-- The `.map((f, index) => ({ ...f, position: index }))` re-normalization. -/
def renumberFields (fs : List BlueprintField) : List BlueprintField :=
  fs.mapIdx (fun i f => { f with position := i })

/-- `deleteField(blueprintId, fieldId)` of the blueprint store: filters the
field out, re-normalizes positions, and returns true whenever the blueprint
exists (the field's existence is not checked). -/
def deleteField (blueprints : List Blueprint) (blueprintId fieldId : String)
    (now : String) : Bool × List Blueprint :=
  match getBlueprint blueprints blueprintId with
  | none => (false, blueprints)
  | some blueprint =>
    let newFields := renumberFields (blueprint.fields.filter (fun f => !(f.id == fieldId)))
    (true, (updateBlueprint blueprints blueprintId { fields := some newFields } now).2)

/-- The `direction` argument of `reorderFields`. -/
inductive ReorderDirection
  | up
  | down
  deriving DecidableEq, Repr

/-- The destructuring swap `[a[i], a[j]] = [a[j], a[i]]` on a list. -/
def listSwap {α : Type} (l : List α) (i j : Nat) : List α :=
  match l.get? i, l.get? j with
  | some a, some b => (l.set i b).set j a
  | _, _ => l

/-- `reorderFields(blueprintId, fieldId, direction)` of the blueprint store:
swaps the field with its neighbour in the requested direction (false at the
boundary) and re-normalizes positions.  `fieldIndex - 1` is computed over
`Int`, as in the source. -/
def reorderFields (blueprints : List Blueprint) (blueprintId fieldId : String)
    (direction : ReorderDirection) (now : String) : Bool × List Blueprint :=
  match getBlueprint blueprints blueprintId with
  | none => (false, blueprints)
  | some blueprint =>
    match blueprint.fields.findIdx? (fun f => f.id == fieldId) with
    | none => (false, blueprints)
    | some fieldIndex =>
      let newIndex : Int :=
        if direction == .up then (fieldIndex : Int) - 1 else (fieldIndex : Int) + 1
      if newIndex < 0 ∨ (blueprint.fields.length : Int) ≤ newIndex then
        (false, blueprints)
      else
        let reordered := renumberFields (listSwap blueprint.fields fieldIndex newIndex.toNat)
        (true, (updateBlueprint blueprints blueprintId { fields := some reordered } now).2)

/-- `DEFAULT_BLUEPRINTS` of src/data/defaultBlueprints: the four seed
templates.  The module-level `timestamp` (`new Date().toISOString()`) is
modelled as the parameter `ts`. -/
def DEFAULT_BLUEPRINTS (ts : String) : List Blueprint :=
  [ { id := "default-employment-contract"
      name := "Employment Contract"
      description := "Standard employment agreement defining role, compensation, and terms of engagement."
      fields :=
        [ { id := "emp-name", label := "Employee Full Name", type := .TEXT, required := true, position := 0 }
        , { id := "emp-position", label := "Job Title / Position", type := .TEXT, required := true, position := 1 }
        , { id := "emp-start-date", label := "Start Date", type := .DATE, required := true, position := 2 }
        , { id := "emp-salary", label := "Annual Salary", type := .TEXT, required := true, position := 3 }
        , { id := "emp-hours", label := "Weekly Working Hours", type := .TEXT, required := true, position := 4 }
        , { id := "emp-notice", label := "Notice Period (Weeks)", type := .TEXT, required := true, position := 5 }
        , { id := "emp-benefits", label := "Health Insurance Included", type := .CHECKBOX, required := false, position := 6 }
        , { id := "emp-signature", label := "Employee Signature", type := .SIGNATURE, required := true, editableBy := some .client, position := 7 } ]
      createdAt := ts
      updatedAt := ts }
  , { id := "default-nda"
      name := "Non-Disclosure Agreement (NDA)"
      description := "Strict confidentiality agreement to protect proprietary information and trade secrets."
      fields :=
        [ { id := "nda-party-name", label := "Receiving Party Name", type := .TEXT, required := true, position := 0 }
        , { id := "nda-company", label := "Company / Organization", type := .TEXT, required := false, position := 1 }
        , { id := "nda-effective-date", label := "Effective Date", type := .DATE, required := true, position := 2 }
        , { id := "nda-duration", label := "Confidentiality Period (years)", type := .TEXT, required := true, position := 3 }
        , { id := "nda-jurisdiction", label := "Governing Law / Jurisdiction", type := .TEXT, required := true, position := 4 }
        , { id := "nda-acknowledge", label := "I acknowledge the terms of this NDA", type := .CHECKBOX, required := true, editableBy := some .client, position := 5 }
        , { id := "nda-signature", label := "Signature", type := .SIGNATURE, required := true, editableBy := some .client, position := 6 } ]
      createdAt := ts
      updatedAt := ts }
  , { id := "default-freelance"
      name := "Freelance Service Agreement"
      description := "Comprehensive contract for project-based work, outlining deliverables, payment terms, and IP ownership."
      fields :=
        [ { id := "free-contractor", label := "Contractor / Freelancer Name", type := .TEXT, required := true, position := 0 }
        , { id := "free-project", label := "Project Description", type := .TEXT, required := true, position := 1 }
        , { id := "free-start", label := "Project Start Date", type := .DATE, required := true, position := 2 }
        , { id := "free-deadline", label := "Delivery Deadline", type := .DATE, required := true, position := 3 }
        , { id := "free-fee", label := "Total Project Fee", type := .TEXT, required := true, position := 4 }
        , { id := "free-payment-terms", label := "Payment Terms (e.g., Net 30, 50% upfront)", type := .TEXT, required := true, position := 5 }
        , { id := "free-ip", label := "Client Retains IP Rights", type := .CHECKBOX, required := false, position := 6 }
        , { id := "free-signature", label := "Contractor Signature", type := .SIGNATURE, required := true, editableBy := some .client, position := 7 } ]
      createdAt := ts
      updatedAt := ts }
  , { id := "default-rental"
      name := "Rental / Lease Agreement"
      description := "Detailed property rental agreement covering lease terms, rent, deposits, and tenant obligations."
      fields :=
        [ { id := "rent-tenant", label := "Tenant Full Name", type := .TEXT, required := true, position := 0 }
        , { id := "rent-address", label := "Property Address", type := .TEXT, required := true, position := 1 }
        , { id := "rent-start", label := "Lease Start Date", type := .DATE, required := true, position := 2 }
        , { id := "rent-end", label := "Lease End Date", type := .DATE, required := true, position := 3 }
        , { id := "rent-amount", label := "Monthly Rent Amount", type := .TEXT, required := true, position := 4 }
        , { id := "rent-deposit", label := "Security Deposit", type := .TEXT, required := true, position := 5 }
        , { id := "rent-late-fee", label := "Late Payment Fee Policy", type := .TEXT, required := false, position := 6 }
        , { id := "rent-pets", label := "Pets Allowed", type := .CHECKBOX, required := false, position := 7 }
        , { id := "rent-signature", label := "Tenant Signature", type := .SIGNATURE, required := true, editableBy := some .client, position := 8 } ]
      createdAt := ts
      updatedAt := ts } ]

/-- The persist `merge` option of the blueprint store: starts from all
default blueprints and appends the persisted blueprints whose id is not a
default id. -/
def mergeBlueprints (ts : String) (persisted : List Blueprint) : List Blueprint :=
  let defaultIds := (DEFAULT_BLUEPRINTS ts).map (fun b => b.id)
  DEFAULT_BLUEPRINTS ts ++ persisted.filter (fun b => !(defaultIds.contains b.id))

/-- The two top-level collections: the blueprint store's and the contract
store's state.  The stores are separate zustand stores; a blueprint action
calls `set` only on the blueprint store, a contract action only on the
contract store. -/
structure AppState where
  blueprints : List Blueprint
  contracts : List Contract
  deriving DecidableEq, Repr

/-- `addField` acting on the whole application state. -/
def appAddField (s : AppState) (blueprintId : String)
    (fieldData : BlueprintFieldData) (freshId now : String) :
    Option BlueprintField × AppState :=
  let r := addField s.blueprints blueprintId fieldData freshId now
  (r.1, { s with blueprints := r.2 })

/-- `updateField` acting on the whole application state. -/
def appUpdateField (s : AppState) (blueprintId fieldId : String)
    (updates : FieldUpdate) (now : String) : Bool × AppState :=
  let r := updateField s.blueprints blueprintId fieldId updates now
  (r.1, { s with blueprints := r.2 })

/-- `deleteField` acting on the whole application state. -/
def appDeleteField (s : AppState) (blueprintId fieldId now : String) :
    Bool × AppState :=
  let r := deleteField s.blueprints blueprintId fieldId now
  (r.1, { s with blueprints := r.2 })

/-- `reorderFields` acting on the whole application state. -/
def appReorderFields (s : AppState) (blueprintId fieldId : String)
    (direction : ReorderDirection) (now : String) : Bool × AppState :=
  let r := reorderFields s.blueprints blueprintId fieldId direction now
  (r.1, { s with blueprints := r.2 })

/-- `updateBlueprint` acting on the whole application state. -/
def appUpdateBlueprint (s : AppState) (id : String)
    (updates : BlueprintUpdateInput) (now : String) :
    Option Blueprint × AppState :=
  let r := updateBlueprint s.blueprints id updates now
  (r.1, { s with blueprints := r.2 })

/-- `deleteBlueprint` acting on the whole application state. -/
def appDeleteBlueprint (s : AppState) (id : String) : Bool × AppState :=
  let r := deleteBlueprint s.blueprints id
  (r.1, { s with blueprints := r.2 })

/-- `createContract` acting on the whole application state (it reads the
blueprint store and writes the contract store). -/
def appCreateContract (s : AppState) (input : ContractCreateInput)
    (freshId now : String) : Option Contract × AppState :=
  let r := createContract s.blueprints s.contracts input freshId now
  (r.1, { s with contracts := r.2 })

/-- Whether a field list's positions are the contiguous 0-based sequence, in
list order. -/
def positionsContiguous (fs : List BlueprintField) : Bool :=
  fs.map (fun f => f.position) == List.range fs.length

/-- A two-field blueprint with contiguous positions, used as concrete input. -/
def sampleBlueprint : Blueprint :=
  { id := "bp1"
    name := "Sample"
    description := ""
    fields :=
      [ { id := "f1", type := .TEXT, label := "First", position := 0, required := true }
      , { id := "f2", type := .TEXT, label := "Second", position := 1, required := false } ]
    createdAt := "t0"
    updatedAt := "t0" }

/-- A one-field blueprint for the snapshot-isolation scenario. -/
def scnBlueprint : Blueprint :=
  { id := "b1"
    name := "NDA"
    description := ""
    fields :=
      [ { id := "f1", type := .TEXT, label := "Original", position := 0, required := true } ]
    createdAt := "t0"
    updatedAt := "t0" }

/-- Snapshot scenario, step 0: one blueprint, no contracts. -/
def scnState0 : AppState := { blueprints := [scnBlueprint], contracts := [] }

/-- Snapshot scenario, step 1: a contract created from the blueprint. -/
def scnState1 : AppState := (appCreateContract scnState0 ⟨"Acme NDA", "b1"⟩ "c1" "t1").2

/-- Snapshot scenario, step 2: the blueprint's field deleted. -/
def scnState2 : AppState := (appDeleteField scnState1 "b1" "f1" "t2").2

/-- Snapshot scenario, step 3: the blueprint itself deleted. -/
def scnState3 : AppState := (appDeleteBlueprint scnState2 "b1").2

/-- A CREATED contract with a single field, used as concrete input. -/
def sampleContract : Contract :=
  { id := "c1"
    name := "Sample contract"
    blueprintId := "b1"
    blueprintName := "NDA"
    status := .CREATED
    fields :=
      [ { id := "f1", type := .TEXT, label := "First", position := 0, required := true, value := .null } ]
    createdAt := "t0"
    updatedAt := "t0" }

/-- A replacement field list whose length, ids, types and positions all
differ from `sampleContract.fields`. -/
def mismatchedFields : List ContractField :=
  [ { id := "g1", type := .DATE, label := "Other", position := 3, required := false, value := .null }
  , { id := "g2", type := .CHECKBOX, label := "Agree", position := 7, required := false, value := .bool true } ]

/-! ## Theorems -/

/-- C1: for each of the six statuses, `getValidTransitions` returns exactly
the transition table's list — CREATED ↦ [APPROVED, REVOKED], APPROVED ↦
[SENT, CREATED, REVOKED], SENT ↦ [SIGNED, REVOKED], SIGNED ↦ [LOCKED],
LOCKED ↦ [], REVOKED ↦ [] — with no extras, no omissions, in that order. -/
theorem getValidTransitions_table :
    getValidTransitions .CREATED = [.APPROVED, .REVOKED]
    ∧ getValidTransitions .APPROVED = [.SENT, .CREATED, .REVOKED]
    ∧ getValidTransitions .SENT = [.SIGNED, .REVOKED]
    ∧ getValidTransitions .SIGNED = [.LOCKED]
    ∧ getValidTransitions .LOCKED = []
    ∧ getValidTransitions .REVOKED = ([] : List ContractStatus) := by
  decide

/-- C9: `getFilterForStatus` and `getStatusesForFilter` are exact inverses:
every status is a member of the statuses of its own filter category; for
every category other than ALL, every status it returns maps back to it; and
ALL returns exactly the six statuses. -/
theorem filter_category_inverse :
    (∀ s : ContractStatus, s ∈ getStatusesForFilter (getFilterForStatus s))
    ∧ (∀ c : DashboardFilter, c ≠ .ALL →
        ∀ s : ContractStatus, s ∈ getStatusesForFilter c → getFilterForStatus s = c)
    ∧ getStatusesForFilter .ALL
        = [.CREATED, .APPROVED, .SENT, .SIGNED, .LOCKED, .REVOKED]
    ∧ (∀ s : ContractStatus, s ∈ getStatusesForFilter .ALL) := by
  decide

/-- C10: `updateContractFields` performs no shape or identity validation: on
a CREATED contract it accepts a replacement list of different length, ids,
types and positions, returns true and installs it verbatim. -/
theorem updateContractFields_no_shape_validation :
    (updateContractFields [sampleContract] "c1" mismatchedFields "t1").1 = true
    ∧ (updateContractFields [sampleContract] "c1" mismatchedFields "t1").2
        = [{ sampleContract with fields := mismatchedFields, updatedAt := "t1" }]
    ∧ mismatchedFields.length ≠ sampleContract.fields.length
    ∧ mismatchedFields.map (fun f => f.id) ≠ sampleContract.fields.map (fun f => f.id) := by
  decide

/-- C5: every Template Catalog mutation (addField, updateField, deleteField,
reorderFields, updateBlueprint, deleteBlueprint) leaves the contract
collection — hence every existing contract's fields and denormalized
blueprintName — completely unchanged; and in the concrete scenario (create
blueprint B with field F1, create contract C from B, delete F1 from B, then
delete B itself) contract C still carries F1 with its original label and its
blueprintName still resolves. -/
theorem blueprint_mutations_preserve_contract_snapshot :
    (∀ (s : AppState) (bid freshId now : String) (fd : BlueprintFieldData),
      (appAddField s bid fd freshId now).2.contracts = s.contracts)
    ∧ (∀ (s : AppState) (bid fid now : String) (u : FieldUpdate),
      (appUpdateField s bid fid u now).2.contracts = s.contracts)
    ∧ (∀ (s : AppState) (bid fid now : String),
      (appDeleteField s bid fid now).2.contracts = s.contracts)
    ∧ (∀ (s : AppState) (bid fid now : String) (dir : ReorderDirection),
      (appReorderFields s bid fid dir now).2.contracts = s.contracts)
    ∧ (∀ (s : AppState) (bid now : String) (u : BlueprintUpdateInput),
      (appUpdateBlueprint s bid u now).2.contracts = s.contracts)
    ∧ (∀ (s : AppState) (bid : String),
      (appDeleteBlueprint s bid).2.contracts = s.contracts)
    ∧ getContract scnState2.contracts "c1" = getContract scnState1.contracts "c1"
    ∧ getContract scnState3.contracts "c1" = getContract scnState1.contracts "c1"
    ∧ (getContract scnState3.contracts "c1").map (fun c =>
        c.fields.map (fun f => (f.id, f.label)))
        = some [("f1", "Original")]
    ∧ (getContract scnState3.contracts "c1").map (fun c => c.blueprintName)
        = some "NDA"
    ∧ getBlueprint scnState3.blueprints "b1" = none := by
  refine ⟨fun s _ _ _ _ => rfl, fun s _ _ _ _ => rfl, fun s _ _ _ => rfl,
    fun s _ _ _ _ => rfl, fun s _ _ _ => rfl, fun s _ => rfl, ?_, ?_, ?_, ?_, ?_⟩
  all_goals decide

/-- C7's counterexample: `updateField` with a partial update containing a
position does not re-normalize — on a blueprint with contiguous positions
[0, 1] it returns true and leaves positions [5, 1]. -/
theorem updateField_position_breaks_contiguity :
    positionsContiguous sampleBlueprint.fields = true
    ∧ (updateField [sampleBlueprint] "bp1" "f1" { position := some 5 } "t1").1 = true
    ∧ ((updateField [sampleBlueprint] "bp1" "f1" { position := some 5 } "t1").2.map
        (fun bp => positionsContiguous bp.fields)) = [false] := by
  decide

/-- C8's counterexample: `deleteField` on an existing blueprint and a field
id not among its fields returns true (not false) and stamps `updatedAt`. -/
theorem deleteField_missing_field_returns_true :
    ((sampleBlueprint.fields.map (fun f => f.id)).contains "zzz") = false
    ∧ (deleteField [sampleBlueprint] "bp1" "zzz" "t1").1 = true
    ∧ ((deleteField [sampleBlueprint] "bp1" "zzz" "t1").2.map (fun b => b.updatedAt))
        = ["t1"]
    ∧ ((deleteField [sampleBlueprint] "bp1" "zzz" "t1").2.map (fun b => b.fields))
        = [sampleBlueprint.fields] := by
  decide

/-- C2: `transitionStatus` returns true exactly when the contract exists and
`canTransition` allows the move; on success it rewrites only the matching
contract's status and updatedAt; on failure the collection is unchanged; and
a successful transition to LOCKED happens exactly from SIGNED. -/
theorem transitionStatus_gated (cs : List Contract) (id : String)
    (ns : ContractStatus) (now : String) :
    (transitionStatus cs id ns now).1
      = (match getContract cs id with
         | none => false
         | some c => canTransition c.status ns)
    ∧ (transitionStatus cs id ns now).2
      = (if (transitionStatus cs id ns now).1 = true
         then cs.map (fun c =>
           if c.id == id then { c with status := ns, updatedAt := now } else c)
         else cs)
    ∧ ((ns == ContractStatus.LOCKED) && (transitionStatus cs id ns now).1)
      = (match getContract cs id with
         | none => false
         | some c => (ns == ContractStatus.LOCKED) && (c.status == ContractStatus.SIGNED)) := by
  have hb : ∀ s t : ContractStatus,
      ((t == ContractStatus.LOCKED) && canTransition s t)
        = ((t == ContractStatus.LOCKED) && (s == ContractStatus.SIGNED)) := by decide
  have h1 : (transitionStatus cs id ns now).1
      = (match getContract cs id with
         | none => false
         | some c => canTransition c.status ns) := by
    cases h : getContract cs id with
    | none => simp [transitionStatus, h]
    | some c => cases hc : canTransition c.status ns <;> simp [transitionStatus, h, hc]
  refine ⟨h1, ?_, ?_⟩
  · cases h : getContract cs id with
    | none => simp [transitionStatus, h]
    | some c => cases hc : canTransition c.status ns <;> simp [transitionStatus, h, hc]
  · rw [h1]
    cases h : getContract cs id with
    | none => simp
    | some c => simpa using hb c.status ns

/-- C3: `updateContractFields` returns true exactly when the contract exists
and its status is CREATED or SENT; on success it rewrites only the matching
contract's fields and updatedAt; otherwise the collection is unchanged. -/
theorem updateContractFields_gated (cs : List Contract) (id : String)
    (fs : List ContractField) (now : String) :
    (updateContractFields cs id fs now).1
      = (match getContract cs id with
         | none => false
         | some c => (c.status == ContractStatus.CREATED) || (c.status == ContractStatus.SENT))
    ∧ (updateContractFields cs id fs now).2
      = (if (updateContractFields cs id fs now).1 = true
         then cs.map (fun c =>
           if c.id == id then { c with fields := fs, updatedAt := now } else c)
         else cs) := by
  have h1 : (updateContractFields cs id fs now).1
      = (match getContract cs id with
         | none => false
         | some c => (c.status == ContractStatus.CREATED) || (c.status == ContractStatus.SENT)) := by
    cases h : getContract cs id with
    | none => simp [updateContractFields, h]
    | some c =>
      cases hc1 : (c.status == ContractStatus.CREATED) <;>
        cases hc2 : (c.status == ContractStatus.SENT) <;>
          simp [updateContractFields, h, hc1, hc2]
  refine ⟨h1, ?_⟩
  cases h : getContract cs id with
  | none => simp [updateContractFields, h]
  | some c =>
    cases hc1 : (c.status == ContractStatus.CREATED) <;>
      cases hc2 : (c.status == ContractStatus.SENT) <;>
        simp [updateContractFields, h, hc1, hc2]

/-- C4: `createContract` fails exactly when no blueprint with the given id
exists; on success it appends a CREATED contract with the given fresh id,
equal createdAt and updatedAt, and one field per blueprint field obtained by
`initContractField`, which copies the definition and initializes CHECKBOX
values to `defaultChecked ?? false` and all other types to null. -/
theorem createContract_spec (bps : List Blueprint) (cs : List Contract)
    (nm bid freshId now : String) :
    ((createContract bps cs ⟨nm, bid⟩ freshId now).1 = none ↔ getBlueprint bps bid = none)
    ∧ (getBlueprint bps bid = none ↔ ∀ bp ∈ bps, (bp.id == bid) = false)
    ∧ (match getBlueprint bps bid with
       | none => (createContract bps cs ⟨nm, bid⟩ freshId now).2 = cs
       | some bp =>
         ∃ c : Contract,
           (createContract bps cs ⟨nm, bid⟩ freshId now).1 = some c
           ∧ (createContract bps cs ⟨nm, bid⟩ freshId now).2 = cs ++ [c]
           ∧ c.status = .CREATED
           ∧ c.id = freshId
           ∧ c.name = nm
           ∧ c.createdAt = now
           ∧ c.updatedAt = now
           ∧ c.blueprintId = bp.id
           ∧ c.blueprintName = bp.name
           ∧ c.fields = bp.fields.map initContractField
           ∧ c.fields.length = bp.fields.length)
    ∧ (∀ f : BlueprintField, f.type = .CHECKBOX →
        (initContractField f).value = .bool (f.defaultChecked.getD false))
    ∧ (∀ f : BlueprintField, f.type ≠ .CHECKBOX → (initContractField f).value = .null)
    ∧ (∀ f : BlueprintField,
        (initContractField f).id = f.id
        ∧ (initContractField f).type = f.type
        ∧ (initContractField f).label = f.label
        ∧ (initContractField f).position = f.position
        ∧ (initContractField f).required = f.required
        ∧ (initContractField f).editableBy = f.editableBy
        ∧ (initContractField f).placeholder = f.placeholder) := by
  refine ⟨?_, ?_, ?_, ?_, ?_, ?_⟩
  · cases h : getBlueprint bps bid <;> simp [createContract, h]
  · simp [getBlueprint, List.find?_eq_none]
  · cases h : getBlueprint bps bid with
    | none => simp [createContract, h]
    | some bp =>
      refine ⟨{ id := freshId, name := nm, blueprintId := bp.id,
                blueprintName := bp.name, status := .CREATED,
                fields := bp.fields.map initContractField,
                createdAt := now, updatedAt := now },
        ?_, ?_, rfl, rfl, rfl, rfl, rfl, rfl, rfl, rfl, by simp⟩ <;>
        simp [createContract, h]
  · intro f hf
    simp [initContractField, hf]
  · intro f hf
    simp [initContractField, hf]
  · intro f
    exact ⟨rfl, rfl, rfl, rfl, rfl, rfl, rfl⟩

/-- C6: load-time reconciliation unions the persisted set with the seed set
by id: every seed blueprint is present in the result (re-inserted even if
its id was absent from the persisted state), every persisted blueprint whose
id is not a seed id appears unchanged, and the result's ids are exactly the
seed ids together with the persisted ids. -/
theorem mergeBlueprints_reconciles (ts : String) (persisted : List Blueprint) :
    (∀ d ∈ DEFAULT_BLUEPRINTS ts, d ∈ mergeBlueprints ts persisted)
    ∧ (∀ b ∈ persisted,
        (∀ d ∈ DEFAULT_BLUEPRINTS ts, d.id ≠ b.id) → b ∈ mergeBlueprints ts persisted)
    ∧ (∀ i : String,
        (∃ b ∈ mergeBlueprints ts persisted, b.id = i)
          ↔ (∃ d ∈ DEFAULT_BLUEPRINTS ts, d.id = i) ∨ (∃ b ∈ persisted, b.id = i)) := by
  refine ⟨?_, ?_, ?_⟩
  · intro d hd
    exact List.mem_append_left _ hd
  · intro b hb hne
    apply List.mem_append_right
    refine List.mem_filter.mpr ⟨hb, ?_⟩
    have : b.id ∉ (DEFAULT_BLUEPRINTS ts).map (fun d => d.id) := by
      simp only [List.mem_map]
      rintro ⟨d, hd, hdi⟩
      exact hne d hd hdi
    simp [this]
  · intro i
    constructor
    · rintro ⟨b, hb, rfl⟩
      rcases List.mem_append.mp hb with h | h
      · exact Or.inl ⟨b, h, rfl⟩
      · exact Or.inr ⟨b, (List.mem_filter.mp h).1, rfl⟩
    · rintro (⟨d, hd, rfl⟩ | ⟨b, hb, rfl⟩)
      · exact ⟨d, List.mem_append_left _ hd, rfl⟩
      · by_cases hc : ∃ d ∈ DEFAULT_BLUEPRINTS ts, d.id = b.id
        · rcases hc with ⟨d, hd, hdi⟩
          exact ⟨d, List.mem_append_left _ hd, hdi⟩
        · refine ⟨b, List.mem_append_right _ (List.mem_filter.mpr ⟨hb, ?_⟩), rfl⟩
          have : b.id ∉ (DEFAULT_BLUEPRINTS ts).map (fun d => d.id) := by
            simp only [List.mem_map]
            rintro ⟨d, hd, hdi⟩
            exact hc ⟨d, hd, hdi⟩
          simp [this]

/-- Positions written by the `.map((f, index) => ...)` re-normalization form
the index sequence. -/
theorem mapIdx_position_aux (g : Nat → Nat) :
    ∀ fs : List BlueprintField,
      (fs.mapIdx (fun i f => { f with position := g i })).map (fun f => f.position)
        = (List.range fs.length).map g := by
  intro fs
  induction fs generalizing g with
  | nil => simp
  | cons a l ih =>
    simp [List.mapIdx_cons, List.range_succ_eq_map, ih, Function.comp]

/-- The re-normalization always yields contiguous positions. -/
theorem renumberFields_contiguous (fs : List BlueprintField) :
    positionsContiguous (renumberFields fs) = true := by
  have h := mapIdx_position_aux (fun i => i) fs
  simp only [List.map_id'] at h
  simp [positionsContiguous, renumberFields, h]

/-- In a contiguous field list, each field's position is its index. -/
theorem contiguous_getElem (fs : List BlueprintField)
    (h : positionsContiguous fs = true) :
    ∀ k, (hk : k < fs.length) → fs[k].position = k := by
  intro k hk
  have he : fs.map (fun f => f.position) = List.range fs.length := by
    simpa [positionsContiguous] using h
  have h2 : (fs.map (fun f => f.position))[k]? = (List.range fs.length)[k]? := by
    rw [he]
  simpa [List.getElem?_eq_getElem, hk] using h2

/-- Re-writing each position to the value it already holds is the identity. -/
theorem mapIdx_position_id (fs : List BlueprintField) :
    ∀ g : Nat → Nat, (∀ k, (hk : k < fs.length) → fs[k].position = g k) →
      fs.mapIdx (fun i f => { f with position := g i }) = fs := by
  induction fs with
  | nil => intro g _; rfl
  | cons a l ih =>
    intro g hg
    have h0 : a.position = g 0 := by simpa using hg 0 (by simp)
    simp only [List.mapIdx_cons]
    congr 1
    · rw [← h0]
    · exact ih (fun i => g (i + 1)) (fun k hk => by simpa using hg (k + 1) (by simpa))

/-- Re-normalizing an already contiguous field list changes nothing. -/
theorem renumberFields_of_contiguous (fs : List BlueprintField)
    (h : positionsContiguous fs = true) : renumberFields fs = fs :=
  mapIdx_position_id fs (fun i => i) (contiguous_getElem fs h)

/-- Appending one field positioned at the current count keeps contiguity. -/
theorem contiguous_append_one (fs : List BlueprintField) (f : BlueprintField)
    (h : positionsContiguous fs = true) (hf : f.position = fs.length) :
    positionsContiguous (fs ++ [f]) = true := by
  have he : fs.map (fun g => g.position) = List.range fs.length := by
    simpa [positionsContiguous] using h
  simp [positionsContiguous, he, hf, List.range_succ]

/-- A position-preserving per-field rewrite preserves contiguity. -/
theorem contiguous_map_preserving (fs : List BlueprintField)
    (g : BlueprintField → BlueprintField)
    (hg : ∀ f ∈ fs, (g f).position = f.position) :
    positionsContiguous (fs.map g) = positionsContiguous fs := by
  unfold positionsContiguous
  rw [List.length_map, List.map_map]
  have : fs.map (fun f => (g f).position) = fs.map (fun f => f.position) :=
    List.map_congr_left hg
  rw [show ((fun f => f.position) ∘ g) = (fun f => (g f).position) from rfl, this]

/-- C7 (amended): on states whose blueprints all have contiguous positions,
addField, deleteField and reorderFields keep every blueprint's positions a
contiguous 0-based sequence, addField's new field sits at position = current
field count, and updateField preserves contiguity for any partial update not
containing a position; an update containing a differing position can break
contiguity (see the counterexample). -/
theorem field_ops_preserve_contiguity
    (bps : List Blueprint) (bid fid freshId now : String)
    (fd : BlueprintFieldData) (u : FieldUpdate) (dir : ReorderDirection)
    (hcont : ∀ bp ∈ bps, positionsContiguous bp.fields = true)
    (hpos : u.position = none) :
    (∀ bp ∈ (addField bps bid fd freshId now).2, positionsContiguous bp.fields = true)
    ∧ (∀ bp ∈ (deleteField bps bid fid now).2, positionsContiguous bp.fields = true)
    ∧ (∀ bp ∈ (reorderFields bps bid fid dir now).2, positionsContiguous bp.fields = true)
    ∧ (∀ bp ∈ (updateField bps bid fid u now).2, positionsContiguous bp.fields = true)
    ∧ (∀ f : BlueprintField, (addField bps bid fd freshId now).1 = some f →
        ∃ bp, getBlueprint bps bid = some bp ∧ f.position = bp.fields.length) := by
  refine ⟨?_, ?_, ?_, ?_, ?_⟩
  · intro bp' hmem
    cases hbp : getBlueprint bps bid with
    | none =>
      rw [addField, hbp] at hmem
      exact hcont bp' hmem
    | some bp =>
      rw [addField, hbp] at hmem
      rcases List.mem_map.mp hmem with ⟨b0, hb0, rfl⟩
      by_cases hb : (b0.id == bid) = true
      · simp only [hb, if_true, applyBlueprintUpdate, Option.getD]
        exact contiguous_append_one bp.fields _
          (hcont bp (List.mem_of_find?_eq_some hbp)) rfl
      · simp only [hb, if_false, Bool.false_eq_true]
        exact hcont b0 hb0
  · intro bp' hmem
    cases hbp : getBlueprint bps bid with
    | none =>
      rw [deleteField, hbp] at hmem
      exact hcont bp' hmem
    | some bp =>
      rw [deleteField, hbp] at hmem
      rcases List.mem_map.mp hmem with ⟨b0, hb0, rfl⟩
      by_cases hb : (b0.id == bid) = true
      · simp only [hb, if_true, applyBlueprintUpdate, Option.getD]
        exact renumberFields_contiguous _
      · simp only [hb, if_false, Bool.false_eq_true]
        exact hcont b0 hb0
  · intro bp' hmem
    cases hbp : getBlueprint bps bid with
    | none =>
      rw [reorderFields, hbp] at hmem
      exact hcont bp' hmem
    | some bp =>
      simp only [reorderFields, hbp] at hmem
      cases hidx : bp.fields.findIdx? (fun f => f.id == fid) with
      | none =>
        simp only [hidx] at hmem
        exact hcont bp' hmem
      | some fieldIndex =>
        simp only [hidx] at hmem
        split at hmem <;> split at hmem <;>
        first
          | exact hcont bp' hmem
          | (rcases List.mem_map.mp hmem with ⟨b0, hb0, rfl⟩
             by_cases hb : (b0.id == bid) = true
             · simp only [hb, if_true, applyBlueprintUpdate, Option.getD]
               exact renumberFields_contiguous _
             · simp only [hb, if_false, Bool.false_eq_true]
               exact hcont b0 hb0)
  · intro bp' hmem
    cases hbp : getBlueprint bps bid with
    | none =>
      rw [updateField, hbp] at hmem
      exact hcont bp' hmem
    | some bp =>
      simp only [updateField, hbp] at hmem
      cases hany : bp.fields.any (fun f => f.id == fid) with
      | false =>
        simp [hany] at hmem
        exact hcont bp' hmem
      | true =>
        simp only [hany, Bool.not_true, Bool.false_eq_true, if_false] at hmem
        rcases List.mem_map.mp hmem with ⟨b0, hb0, rfl⟩
        by_cases hb : (b0.id == bid) = true
        · simp only [hb, if_true, applyBlueprintUpdate, Option.getD]
          rw [contiguous_map_preserving]
          · exact hcont bp (List.mem_of_find?_eq_some hbp)
          · intro f _
            by_cases hc : (f.id == fid) = true <;>
              simp [hc, applyFieldUpdate, hpos]
        · simp only [hb, if_false, Bool.false_eq_true]
          exact hcont b0 hb0
  · intro f hf
    cases hbp : getBlueprint bps bid with
    | none => rw [addField, hbp] at hf; cases hf
    | some bp =>
      simp only [addField, hbp, Option.some.injEq] at hf
      refine ⟨bp, rfl, ?_⟩
      rw [← hf]

/-- Witness for the amended C7 at a concrete input. -/
theorem field_ops_preserve_contiguity_witness :
    (∀ bp ∈ (addField [sampleBlueprint] "bp1" ⟨.TEXT, "New", false, none, none, none⟩ "nf" "t1").2,
      positionsContiguous bp.fields = true)
    ∧ (∀ bp ∈ (deleteField [sampleBlueprint] "bp1" "f1" "t1").2,
      positionsContiguous bp.fields = true)
    ∧ (∀ bp ∈ (reorderFields [sampleBlueprint] "bp1" "f1" .up "t1").2,
      positionsContiguous bp.fields = true)
    ∧ (∀ bp ∈ (updateField [sampleBlueprint] "bp1" "f1" {} "t1").2,
      positionsContiguous bp.fields = true)
    ∧ (∀ f : BlueprintField,
        (addField [sampleBlueprint] "bp1" ⟨.TEXT, "New", false, none, none, none⟩ "nf" "t1").1 = some f →
        ∃ bp, getBlueprint [sampleBlueprint] "bp1" = some bp ∧ f.position = bp.fields.length) :=
  field_ops_preserve_contiguity [sampleBlueprint] "bp1" "f1" "nf" "t1"
    ⟨.TEXT, "New", false, none, none, none⟩ {} .up (by decide) rfl

/-- C8 (amended): referencing a nonexistent field id on an existing
blueprint makes `updateField` return false with no mutation at all, while
`deleteField` returns true and stamps `updatedAt`, leaving the (contiguous)
field list itself unchanged. -/
theorem missing_field_referential (bps : List Blueprint) (bid fid now : String)
    (u : FieldUpdate) (bp : Blueprint)
    (hbp : getBlueprint bps bid = some bp)
    (hfid : ∀ f ∈ bp.fields, (f.id == fid) = false)
    (hcont : positionsContiguous bp.fields = true) :
    updateField bps bid fid u now = (false, bps)
    ∧ deleteField bps bid fid now
        = (true, bps.map (fun b =>
            if b.id == bid then { b with fields := bp.fields, updatedAt := now } else b)) := by
  constructor
  · have hany : bp.fields.any (fun f => f.id == fid) = false := by
      rw [List.any_eq_false]
      intro f hf
      simp [hfid f hf]
    simp [updateField, hbp, hany]
  · have hkeep : bp.fields.filter (fun f => !(f.id == fid)) = bp.fields :=
      List.filter_eq_self.mpr (by intro f hf; simp [hfid f hf])
    have hren : renumberFields bp.fields = bp.fields :=
      renumberFields_of_contiguous bp.fields hcont
    simp only [deleteField, hbp, hkeep, hren, updateBlueprint, applyBlueprintUpdate,
      Option.getD]

/-- Witness for the amended C8 at a concrete input. -/
theorem missing_field_referential_witness :
    updateField [sampleBlueprint] "bp1" "zzz" {} "t1" = (false, [sampleBlueprint])
    ∧ deleteField [sampleBlueprint] "bp1" "zzz" "t1"
        = (true, [sampleBlueprint].map (fun b =>
            if b.id == "bp1" then { b with fields := sampleBlueprint.fields, updatedAt := "t1" } else b)) :=
  missing_field_referential [sampleBlueprint] "bp1" "zzz" "t1" {} sampleBlueprint
    (by decide) (by decide) (by decide)

end ContractMgmt
